import Mathlib

/-!
Verification development for the `pointspy` spatial index
(`pointspy/indexkd.py`).

The embedding is shallow: a numpy coordinate array of shape `(n, k)`
becomes a `List (List ℚ)` (floating-point values are modelled as exact
rationals), a point identifier is its 0-based position, and the scipy
`cKDTree` / rtree backends are modelled by their documented semantics
(exact nearest/radius queries over the stored points).  Euclidean
distances are represented by their squares, which keeps all arithmetic
inside `ℚ` and preserves the ordering used by every query.

Python dynamic failures (`TypeError` from calling a non-callable,
`AttributeError` from a missing attribute, `ValueError` raises) are
modelled with an explicit `Except PyErr` result where the source can
fail.
-/

namespace Pointspy

/-- Python exception kinds that the embedded code can raise. -/
inductive PyErr where
  | typeError
  | valueError
  | attributeError
  deriving DecidableEq, Repr

/-- One `k`-dimensional point (a row of the coordinate array). -/
abbrev Coord := List ℚ

/-- A coordinate array of shape `(n, k)`: `n` rows of `k` rationals. -/
abbrev Coords := List Coord

/-- Squared Euclidean distance between two coordinate rows
(`scipy` distances are monotone images of this value; rows are zipped
componentwise exactly as the `(n, k)` layout pairs coordinates). -/
def sqDist (a b : Coord) : ℚ :=
  ((a.zip b).map (fun p => (p.1 - p.2) ^ 2)).sum

/-- The `IndexKD` object after `__init__`: the stored (already
transformed) coordinate snapshot plus the kd-tree build options
(`self._leafsize`, `self._balanced`, `self._compact`). -/
structure IndexKD where
  coords : Coords
  leafsize : ℕ := 16
  balanced : Bool := false
  compact : Bool := false

/-- `self.dim`: a `@property` returning `self.coords.shape[1]`
(the row length of the stored array). -/
def IndexKD.dim (idx : IndexKD) : ℕ :=
  (idx.coords.getD 0 []).length

/-- `len(self)`: `self.coords.shape[0]`. -/
def IndexKD.len (idx : IndexKD) : ℕ :=
  idx.coords.length

/-- `scipy.spatial.cKDTree.query_ball_point(c, r)` over the stored
points: identifiers of all points whose Euclidean distance to `c` is
at most `r` (empty for a negative radius, since distances are
nonnegative), in ascending identifier order. -/
def queryBallPoint (pts : Coords) (c : Coord) (r : ℚ) : List ℕ :=
  (List.range pts.length).filter
    (fun i => decide (0 ≤ r) && decide (sqDist (pts.getD i []) c ≤ r ^ 2))

/-- `IndexKD.ball` in its single-point branch:
`self.kd_tree.query_ball_point(coords[:self.dim], r)`. -/
def IndexKD.ball_single (idx : IndexKD) (c : Coord) (r : ℚ) : List ℕ :=
  queryBallPoint idx.coords (c.take idx.dim) r

/-- `np.intersect1d(a, b)`: the sorted, deduplicated common values of
`a` and `b`. -/
def intersect1d (a b : List ℕ) : List ℕ :=
  List.insertionSort (· ≤ ·) ((a.filter (fun x => b.contains x)).dedup)

/-- `np.setdiff1d(a, b)`: the sorted, deduplicated values of `a` that
are not in `b`. -/
def setdiff1d (a b : List ℕ) : List ℕ :=
  List.insertionSort (· ≤ ·) ((a.filter (fun x => !(b.contains x))).dedup)

/-- `IndexKD.sphere` as the source computes it: an inner ball query, an
outer ball query, and `np.intersect1d(outer, inner)` as the result. -/
def IndexKD.sphere (idx : IndexKD) (coord : Coord) (r_min r_max : ℚ) : List ℕ :=
  let inner := idx.ball_single (coord.take idx.dim) r_min
  let outer := idx.ball_single (coord.take idx.dim) r_max
  intersect1d outer inner

/-- The shell query as the specification words it: the set difference of
the outer ball minus the inner ball, deduplicated and sorted. -/
def sphereSpec (idx : IndexKD) (coord : Coord) (r_min r_max : ℚ) : List ℕ :=
  setdiff1d (idx.ball_single (coord.take idx.dim) r_max)
    (idx.ball_single (coord.take idx.dim) r_min)

/-- `isinstance(x, numbers.Number)` for an argument that is a number:
every `ℚ`-valued argument models a Python numeric value, so the check
is `true`. -/
def isNumber (_ : ℚ) : Bool := true

/-- `IndexKD.sphere` together with its guard clauses, exactly as
written in the source:
`if not isinstance(r_min, Number) and r_min > 0: raise ValueError(...)`
and
`if not isinstance(r_max, Number) and r_max > r_min: raise ValueError(...)`.
Note both guards conjoin `not isinstance(...)` with the comparison, so
for numeric arguments the conjunction is always false. -/
def IndexKD.sphere_checked (idx : IndexKD) (coord : Coord) (r_min r_max : ℚ) :
    Except PyErr (List ℕ) :=
  if (!isNumber r_min) && decide (r_min > 0) then
    Except.error PyErr.valueError
  else if (!isNumber r_max) && decide (r_max > r_min) then
    Except.error PyErr.valueError
  else
    Except.ok (idx.sphere coord r_min r_max)

/-- A two-point one-dimensional index used as a concrete probe:
point `0` at the origin and point `1` at distance `2`. -/
def probeIdx : IndexKD := { coords := [[0], [2]] }

/-- C1: The claim says `sphere(c, r_min, r_max)` equals
`ball(c, r_max) \ ball(c, r_min)` as sets.  The source instead returns
`np.intersect1d(outer, inner)`, which (the inner ball being a subset of
the outer ball) is the inner ball itself.  On the probe index with
center `(0)`, `r_min = 1`, `r_max = 2`, the code yields `[0]` (the
point inside the inner ball) while the set difference the claim
describes is `[1]` (the point at distance 2). -/
theorem sphere_intersects_instead_of_setdiff :
    probeIdx.sphere [0] 1 2 = [0] ∧ sphereSpec probeIdx [0] 1 2 = [1] := by
  constructor <;>
    norm_num [IndexKD.sphere, sphereSpec, IndexKD.ball_single, queryBallPoint,
      sqDist, intersect1d, setdiff1d, probeIdx, IndexKD.dim, List.range_succ,
      List.dedup_cons_of_mem, List.dedup_cons_of_not_mem]

/-- C9: The claim says `sphere` raises on `r_min ≤ 0` or
`r_max ≤ r_min`.  The source guards read
`not isinstance(r_min, Number) and r_min > 0`, which is false for every
numeric argument, so no numeric parameter combination ever raises: the
checked call always returns an ordinary result.  In particular the
concrete invalid call with `r_min = -1` and `r_max = 1/2` succeeds
(returning the empty result) instead of raising. -/
theorem sphere_never_raises_for_numeric_args :
    (∀ (idx : IndexKD) (coord : Coord) (r_min r_max : ℚ),
        idx.sphere_checked coord r_min r_max =
          Except.ok (idx.sphere coord r_min r_max))
    ∧ probeIdx.sphere_checked [0] (-1) (1 / 2) = Except.ok [] := by
  constructor
  · intro idx coord r_min r_max
    rfl
  · norm_num [IndexKD.sphere_checked, isNumber, IndexKD.sphere,
      IndexKD.ball_single, queryBallPoint, sqDist, intersect1d, probeIdx,
      IndexKD.dim, List.range_succ, List.dedup_cons_of_mem,
      List.dedup_cons_of_not_mem]

/-- A Python value, as far as the embedded code needs to distinguish:
an integer or a callable. -/
inductive PyVal where
  | int (n : ℕ)
  | callable
  deriving DecidableEq

/-- Calling a Python value: only a callable may be called; calling an
integer raises `TypeError` (this is what `self.dim()` does, since
`dim` is a `@property` whose value is an `int`). -/
def pyCall (v : PyVal) : Except PyErr PyVal :=
  match v with
  | PyVal.callable => Except.ok PyVal.callable
  | _ => Except.error PyErr.typeError

/-- The built `scipy.spatial.cKDTree`: the stored points plus the build
options passed in `IndexKD.kd_tree`. -/
structure KDTree where
  pts : Coords
  leafsize : ℕ
  balanced : Bool
  compact : Bool
  deriving DecidableEq

/-- `cKDTree(self.coords, leafsize=..., balanced_tree=..., compact_nodes=...)`. -/
def buildKDTree (idx : IndexKD) : KDTree :=
  { pts := idx.coords
    leafsize := idx.leafsize
    balanced := idx.balanced
    compact := idx.compact }

/-- The built `rtree.Rtree` over the stored points. -/
structure RTree where
  pts : Coords
  deriving DecidableEq

/-- `rtree` point intersection: identifiers of stored points inside the
extent `(min_1 .. min_k, max_1 .. max_k)`, bounds inclusive on every
axis. -/
def RTree.intersection (t : RTree) (extent : List ℚ) : List ℕ :=
  let k := (t.pts.getD 0 []).length
  (List.range t.pts.length).filter (fun i =>
    (List.range k).all (fun d =>
      decide (extent.getD d 0 ≤ (t.pts.getD i []).getD d 0) &&
      decide ((t.pts.getD i []).getD d 0 ≤ extent.getD (k + d) 0)))

/-- `IndexKD.r_tree`, the body of the memoized build.  The source sets
`p.dimension = self.dim()` and computes
`np.concatenate((range(self.dim()), range(self.dim())))`; `dim` is a
`@property`, so `self.dim` is an `int` and each call of it raises
`TypeError`. -/
def buildRTree (idx : IndexKD) : Except PyErr RTree := do
  let _ ← pyCall (PyVal.int idx.dim)
  let _ ← pyCall (PyVal.int idx.dim)
  Except.ok { pts := idx.coords }

/-- The lazy-construction state of one index instance: the `_kd_tree`
and `_r_tree` attributes (`none` while `hasattr` is false). -/
structure MemoState where
  kd : Option KDTree := none
  rt : Option RTree := none
  deriving DecidableEq

/-- A freshly constructed index has neither structure built. -/
def initMemo : MemoState := {}

/-- The `kd_tree` property:
`if not hasattr(self, '_kd_tree'): self._kd_tree = cKDTree(...)` then
`return self._kd_tree`.  Returns the tree and the updated attribute
state. -/
def kd_tree_access (idx : IndexKD) (s : MemoState) : KDTree × MemoState :=
  match s.kd with
  | some t => (t, s)
  | none =>
      let t := buildKDTree idx
      (t, { s with kd := some t })

/-- The `r_tree` property:
`if not hasattr(self, '_r_tree'): self._r_tree = Rtree(gen(), ...)`
then `return self._r_tree`.  If the build raises, `_r_tree` is never
assigned, so the attribute state is unchanged. -/
def r_tree_access (idx : IndexKD) (s : MemoState) :
    Except PyErr (RTree × MemoState) :=
  match s.rt with
  | some t => Except.ok (t, s)
  | none =>
      match buildRTree idx with
      | Except.error e => Except.error e
      | Except.ok t => Except.ok (t, { s with rt := some t })

/-- `IndexKD.box(extent)`:
`return self.r_tree.intersection(extent, objects='raw')`, issued on a
freshly constructed index. -/
def IndexKD.box (idx : IndexKD) (extent : List ℚ) : Except PyErr (List ℕ) :=
  match r_tree_access idx initMemo with
  | Except.error e => Except.error e
  | Except.ok (t, _) => Except.ok (t.intersection extent)

/-- C2: The claim says `box` returns the identifiers inside the extent,
answered via the lazily built R-tree.  The `r_tree` property can never
be built: its body calls `self.dim()` although `dim` is a `@property`
returning an `int`, so every `box` call raises
`TypeError: 'int' object is not callable` and no identifiers are ever
returned. -/
theorem box_raises_typeError (idx : IndexKD) (extent : List ℚ) :
    idx.box extent = Except.error PyErr.typeError := by
  rfl

/-- C8: The claim says both structures are built at most once, cached,
and returned identically on later accesses.  This holds for the
kd-tree: a second access returns the structure cached by the first,
unchanged, and accessing the kd-tree never touches the r-tree slot.
But the r-tree half fails: every access to `r_tree` raises `TypeError`
(`self.dim()` on a property) before `_r_tree` is ever assigned, so no
r-tree is ever built or cached. -/
theorem kd_cached_but_r_tree_never_builds (idx : IndexKD) :
    kd_tree_access idx (kd_tree_access idx initMemo).2 =
      ((kd_tree_access idx initMemo).1, (kd_tree_access idx initMemo).2)
    ∧ (kd_tree_access idx initMemo).2.rt = none
    ∧ r_tree_access idx initMemo = Except.error PyErr.typeError
    ∧ r_tree_access idx ((kd_tree_access idx initMemo).2) =
        Except.error PyErr.typeError := by
  refine ⟨rfl, rfl, rfl, rfl⟩

/-- Python indexing `p[i]` on a coordinate row, supporting negative
indices (`p[-1]` is the last entry), with default `0` outside the
valid range (the source only indexes in range). -/
def pyGet (p : Coord) (i : ℤ) : ℚ :=
  if i < 0 then p.getD (p.length - i.natAbs) 0 else p.getD i.toNat 0

/-- The attribute names the embedded code looks up on an `IndexKD`
object. -/
inductive Attr where
  | ball | ball_iter | balls_iter | ball_count | sphere
  | knn | knn_iter | knns_iter | nn | closest | cube
  | box | box_count | slice | ball_cut | upper_ball | lower_ball
  | kd_tree | r_tree | dim | coords | transform
  | ballCut | tTree
  deriving DecidableEq

/-- The attributes the `IndexKD` class actually defines (its methods and
properties, from the class body).  Note the class defines `ball_cut`,
not `ballCut`, and defines no `tTree`. -/
def classAttrs : List Attr :=
  [Attr.ball, Attr.ball_iter, Attr.balls_iter, Attr.ball_count, Attr.sphere,
   Attr.knn, Attr.knn_iter, Attr.knns_iter, Attr.nn, Attr.closest, Attr.cube,
   Attr.box, Attr.box_count, Attr.slice, Attr.ball_cut, Attr.upper_ball,
   Attr.lower_ball, Attr.kd_tree, Attr.r_tree, Attr.dim, Attr.coords,
   Attr.transform]

/-- Python attribute lookup `self.<a>`: raises `AttributeError` when the
class does not define the attribute. -/
def getattrIndexKD (a : Attr) : Except PyErr Unit :=
  if classAttrs.contains a then Except.ok () else Except.error PyErr.attributeError

/-- `IndexKD.ball_cut(coord, delta, p, filter)`: a single-point ball
query followed by the predicate filter
`[nId for nId in nIds if filter(coord, coords[nId, :])]`. -/
def IndexKD.ball_cut (idx : IndexKD) (coord : Coord) (delta : ℚ)
    (filt : Coord → Coord → Bool) : List ℕ :=
  (idx.ball_single coord delta).filter (fun nId => filt coord (idx.coords.getD nId []))

/-- `IndexKD.upper_ball(coord, delta, p, axis)`:
`return self.ballCut(coord, delta, p=p, filter=lambda pA, pB: pA[axis] > pB[axis])`.
The class defines `ball_cut`, not `ballCut`, so the attribute lookup
raises before anything is queried; the `Except.ok` branch records what
the written filter would compute if the name resolved. -/
def IndexKD.upper_ball (idx : IndexKD) (coord : Coord) (delta : ℚ)
    (axis : ℤ) : Except PyErr (List ℕ) := do
  let _ ← getattrIndexKD Attr.ballCut
  Except.ok (idx.ball_cut coord delta
    (fun pA pB => decide (pyGet pA axis > pyGet pB axis)))

/-- `IndexKD.lower_ball(coord, delta, p, axis)`:
`return self.ballCut(coord, delta, p=p, filter=lambda pA, pB: pA[axis] < pB[axis])`. -/
def IndexKD.lower_ball (idx : IndexKD) (coord : Coord) (delta : ℚ)
    (axis : ℤ) : Except PyErr (List ℕ) := do
  let _ ← getattrIndexKD Attr.ballCut
  Except.ok (idx.ball_cut coord delta
    (fun pA pB => decide (pyGet pA axis < pyGet pB axis)))

/-- A three-point one-dimensional index: the center candidate pool for
the directional queries (origin, one point above, one point below). -/
def probeIdx3 : IndexKD := { coords := [[0], [1], [-1]] }

/-- C4: The claim says `upper_ball` returns the ball subset strictly
above the center on the chosen axis and `lower_ball` the subset
strictly below.  In fact both methods call `self.ballCut`, an attribute
the class does not define (the method is `ball_cut`), so every call
raises `AttributeError`.  Moreover the filter written in `upper_ball`
is `pA[axis] > pB[axis]` with `pA` the center, which keeps the points
strictly BELOW the center: on points `{0, 1, -1}` with center `0` and
radius `2` it would select `[2]` (the point at `-1`), not `[1]` (the
point at `1`) as the claim requires. -/
theorem upper_lower_ball_attributeError :
    (∀ (idx : IndexKD) (coord : Coord) (delta : ℚ) (axis : ℤ),
        idx.upper_ball coord delta axis = Except.error PyErr.attributeError
        ∧ idx.lower_ball coord delta axis = Except.error PyErr.attributeError)
    ∧ probeIdx3.ball_cut [0] 2
        (fun pA pB => decide (pyGet pA (-1) > pyGet pB (-1))) = [2] := by
  constructor
  · intro idx coord delta axis
    exact ⟨rfl, rfl⟩
  · norm_num [IndexKD.ball_cut, IndexKD.ball_single, queryBallPoint, sqDist,
      probeIdx3, IndexKD.dim, pyGet, List.range_succ]

/-- Sort-key comparison used to model value-ordered sorting of
`(value, identifier)` pairs: compare by the value component.  A stable
sort under this relation breaks value ties by position, the
deterministic model used for `np.argsort` and for the kd-tree's
nearest-neighbour ordering. -/
def distLE : ℚ × ℕ → ℚ × ℕ → Prop := fun a b => a.1 ≤ b.1

instance : DecidableRel distLE :=
  fun a b => inferInstanceAs (Decidable (a.1 ≤ b.1))

instance : IsTotal (ℚ × ℕ) distLE := ⟨fun a b => le_total a.1 b.1⟩

instance : IsTrans (ℚ × ℕ) distLE := ⟨fun _ _ _ h1 h2 => le_trans h1 h2⟩

/-- `np.argsort(values)`: the identifiers `0..n-1` reordered so that the
values they index are ascending (stable, so ties keep positional
order). -/
def argsort (vs : List ℚ) : List ℕ :=
  (List.insertionSort distLE (vs.enum.map (fun p => (p.2, p.1)))).map
    (fun p => p.2)

/-- `bisect.bisect_left(l, x)` on an ascending list: the number of
entries strictly below `x`, i.e. the leftmost insertion point. -/
def bisect_left (l : List ℚ) (x : ℚ) : ℕ :=
  (l.takeWhile (fun v => decide (v < x))).length

/-- Python sequence slicing `l[i:j]` with the full signed-index
semantics: a negative bound counts from the end, and both bounds clamp
to the valid range. -/
def pySlice {α : Type} (l : List α) (i j : ℤ) : List α :=
  let n : ℤ := l.length
  let s := if i < 0 then max (n + i) 0 else min i n
  let e := if j < 0 then max (n + j) 0 else min j n
  (l.take e.toNat).drop s.toNat

/-- `IndexKD.slice(min_th, max_th, axis)` as the source computes it:
`values = self.coords[:, axis]`, `order = np.argsort(values)`,
`iMin = bisect.bisect_left(values[order], min_th) - 1`,
`iMax = bisect.bisect_left(values[order], max_th)`,
`ids = np.sort(order[iMin:iMax])`.
(The guard clauses use the same always-false
`not isinstance(...) and ...` pattern as `sphere`, so they never fire
for numeric arguments and are omitted.) -/
def IndexKD.slice (idx : IndexKD) (min_th max_th : ℚ) (axis : ℤ) : List ℕ :=
  let values := idx.coords.map (fun p => pyGet p axis)
  let order := argsort values
  let sortedVals := order.map (fun i => values.getD i 0)
  let iMin : ℤ := (bisect_left sortedVals min_th : ℤ) - 1
  let iMax : ℤ := (bisect_left sortedVals max_th : ℤ)
  List.insertionSort (· ≤ ·) (pySlice order iMin iMax)

/-- The coordinate-slice query as the claim words it: the identifiers
whose value on the chosen axis lies in the inclusive range
`[min_th, max_th]`, in ascending-identifier order. -/
def sliceSpec (idx : IndexKD) (min_th max_th : ℚ) (axis : ℤ) : List ℕ :=
  (List.range idx.coords.length).filter (fun i =>
    decide (min_th ≤ pyGet (idx.coords.getD i []) axis) &&
    decide (pyGet (idx.coords.getD i []) axis ≤ max_th))

/-- A three-point one-dimensional index with ascending values
`0, 1, 2`. -/
def probeIdx3sorted : IndexKD := { coords := [[0], [1], [2]] }

/-- C3: The claim says the slice query returns exactly the identifiers
whose axis value lies in `[min_th, max_th]`, sorted ascending.  On the
1-D index with values `0, 1, 2`:
with `min_th = max_th = 1` the code returns `[0]` (the point with
value `0`!) because `iMin = bisect_left - 1` reaches one position left
of the range and `iMax = bisect_left` excludes the value `1` itself,
while the claim requires `[1]`; and with `min_th = 0, max_th = 1` the
code returns `[]`, because `iMin = -1` wraps around to the END of the
array under Python slicing, while the claim requires `[0, 1]`.  Both
outputs contradict the method's own docstring
(`min_th <= p[axis] <= max_th`). -/
theorem slice_boundary_bug :
    probeIdx3sorted.slice 1 1 (-1) = [0]
    ∧ sliceSpec probeIdx3sorted 1 1 (-1) = [1]
    ∧ probeIdx3sorted.slice 0 1 (-1) = []
    ∧ sliceSpec probeIdx3sorted 0 1 (-1) = [0, 1] := by
  refine ⟨?_, ?_, ?_, ?_⟩ <;>
    norm_num [IndexKD.slice, sliceSpec, argsort, bisect_left, pySlice, distLE,
      probeIdx3sorted, pyGet, List.range_succ, List.enum, List.enumFrom]

/-- The bulk-chunking loop shared by `ball_iter` and `knn_iter`:
`for i in range(coords.shape[0] // bulk + 1):` query the slice
`coords[bulk * i : bulk * (i + 1)]` and yield its per-point results in
order. -/
def chunkedMap {α β : Type} (f : α → β) (bulk : ℕ) (xs : List α) : List β :=
  ((List.range (xs.length / bulk + 1)).map
    (fun i => ((xs.drop (bulk * i)).take bulk).map f)).flatten

/-- `IndexKD.ball_iter(coords, r, bulk)`: bulk
`query_ball_point` chunk queries, whose per-point neighbour lists are
yielded in input order (`coords[bulk*i : bulk*(i+1), :self.dim]`). -/
def IndexKD.ball_iter (idx : IndexKD) (pts : Coords) (r : ℚ) (bulk : ℕ) :
    List (List ℕ) :=
  chunkedMap (fun c => queryBallPoint idx.coords (c.take idx.dim) r) bulk pts

/-- `scipy.spatial.cKDTree.query(c, k)` over the stored points: the `k`
nearest stored points as `(squared distance, identifier)` pairs in
ascending distance order (a stable sort over the identifier-ordered
points, so distance ties keep ascending identifiers). -/
def kdQuery (pts : Coords) (c : Coord) (k : ℕ) : List (ℚ × ℕ) :=
  (List.insertionSort distLE ((List.range pts.length).map
    (fun i => (sqDist c (pts.getD i []), i)))).take k

/-- `IndexKD.knn` in its single-point branch:
`self.kd_tree.query(coords[:self.dim], k)`. -/
def IndexKD.knn_single (idx : IndexKD) (c : Coord) (k : ℕ) : List (ℚ × ℕ) :=
  kdQuery idx.coords (c.take idx.dim) k

/-- `IndexKD.knn_iter(coords, k, bulk)`: bulk kd-tree chunk queries of
`coords[bulk*i : bulk*(i+1), :self.dim]` whose per-point
`(dists, ids)` rows are yielded zipped in input order. -/
def IndexKD.knn_iter (idx : IndexKD) (pts : Coords) (k : ℕ) (bulk : ℕ) :
    List (List (ℚ × ℕ)) :=
  chunkedMap (fun c => idx.knn_single c k) bulk pts

/-- The argument shape `IndexKD.ball` dispatches on: one point, or an
`(n, k)` batch of points. -/
inductive BallInput where
  | one (c : Coord)
  | batch (pts : Coords)

/-- The result shape of `IndexKD.ball`: a flat identifier list for a
single query point, one identifier list per point for a batch. -/
inductive BallOutput where
  | one (ids : List ℕ)
  | batch (idss : List (List ℕ))
  deriving DecidableEq

/-- `IndexKD.ball(coords, r, bulk)` with a scalar radius: the
single-point branch calls `query_ball_point` directly, the batch
branch materializes `list(self.ball_iter(coords, r, bulk=bulk))`. -/
def IndexKD.ball (idx : IndexKD) (inp : BallInput) (r : ℚ) (bulk : ℕ) :
    BallOutput :=
  match inp with
  | BallInput.one c => BallOutput.one (idx.ball_single c r)
  | BallInput.batch pts => BallOutput.batch (idx.ball_iter pts r bulk)

/-- The chunk slices `xs[b*0 : b*1], xs[b*1 : b*2], ...` concatenate to
the first `b * m` elements of `xs`. -/
theorem flatten_chunks {α : Type} (xs : List α) (b m : ℕ) :
    ((List.range m).map (fun i => (xs.drop (b * i)).take b)).flatten
      = xs.take (b * m) := by
  induction m with
  | zero => simp
  | succ m ih =>
      rw [List.range_succ, List.map_append, List.flatten_append]
      simp only [List.map_cons, List.map_nil, List.flatten_cons,
        List.flatten_nil, List.append_nil]
      rw [ih, Nat.mul_succ, List.take_add]

/-- For any chunk size at least one, the chunking loop visits every
input element exactly once, in order. -/
theorem chunkedMap_eq_map {α β : Type} (f : α → β) (bulk : ℕ)
    (hb : 1 ≤ bulk) (xs : List α) :
    chunkedMap f bulk xs = xs.map f := by
  unfold chunkedMap
  have hcomm : ∀ i : ℕ,
      ((xs.drop (bulk * i)).take bulk).map f
        = ((xs.map f).drop (bulk * i)).take bulk := by
    intro i
    rw [List.map_take, List.map_drop]
  calc
    ((List.range (xs.length / bulk + 1)).map
        (fun i => ((xs.drop (bulk * i)).take bulk).map f)).flatten
      = ((List.range (xs.length / bulk + 1)).map
          (fun i => ((xs.map f).drop (bulk * i)).take bulk)).flatten := by
        simp only [hcomm]
    _ = (xs.map f).take (bulk * (xs.length / bulk + 1)) := by
        rw [flatten_chunks]
    _ = xs.map f := by
        apply List.take_of_length_le
        rw [List.length_map, Nat.mul_succ]
        have h2 := Nat.div_add_mod xs.length bulk
        have h3 := Nat.mod_lt xs.length (show 0 < bulk by omega)
        omega

/-- C6: A single query point with a scalar radius yields one flat list
of identifiers, and a batch yields one identifier list per query
point, in batch order: the bulk branch (for any chunk size at least
one, hence for the default `bulk=100000`) equals the per-point map of
the single-point query. -/
theorem ball_single_flat_batch_ordered (idx : IndexKD) (c : Coord)
    (pts : Coords) (r : ℚ) (bulk : ℕ) (hb : 1 ≤ bulk) :
    idx.ball (BallInput.one c) r bulk = BallOutput.one (idx.ball_single c r)
    ∧ idx.ball (BallInput.batch pts) r bulk
        = BallOutput.batch (pts.map (fun q => idx.ball_single q r)) := by
  refine ⟨rfl, ?_⟩
  show BallOutput.batch (idx.ball_iter pts r bulk) = _
  rw [IndexKD.ball_iter, chunkedMap_eq_map _ _ hb]
  rfl

/-- C6 witness: the theorem applied to the three-point 1-D index, one
query point `(0)`, the batch `[(0), (2)]`, radius `1` and chunk size
`1`. -/
theorem ball_single_flat_batch_ordered_witness :
    1 ≤ 1
    ∧ (probeIdx3sorted.ball (BallInput.one [0]) 1 1
          = BallOutput.one (probeIdx3sorted.ball_single [0] 1)
        ∧ probeIdx3sorted.ball (BallInput.batch [[0], [2]]) 1 1
            = BallOutput.batch
                ([[0], [2]].map (fun q => probeIdx3sorted.ball_single q 1))) :=
  ⟨by decide,
    ball_single_flat_batch_ordered probeIdx3sorted [0] [[0], [2]] 1 1
      (by decide)⟩

/-- C7: Chunked bulk processing with any chunk size at least one equals
the unchunked per-point batch, for both the ball family (`ball_iter`)
and the knn family (`knn_iter`): concatenating the per-chunk results
yields exactly the per-query-point results of the single batch call. -/
theorem chunked_queries_eq_unchunked (idx : IndexKD) (pts : Coords)
    (r : ℚ) (k bulk : ℕ) (hb : 1 ≤ bulk) :
    idx.ball_iter pts r bulk = pts.map (fun c => idx.ball_single c r)
    ∧ idx.knn_iter pts k bulk = pts.map (fun c => idx.knn_single c k) := by
  constructor
  · rw [IndexKD.ball_iter, chunkedMap_eq_map _ _ hb]
    rfl
  · rw [IndexKD.knn_iter, chunkedMap_eq_map _ _ hb]

/-- C7 witness: the theorem applied to the three-point 1-D index, the
batch `[(0), (2)]`, radius `1`, `k = 1` and chunk size `1`. -/
theorem chunked_queries_eq_unchunked_witness :
    1 ≤ 1
    ∧ (probeIdx3sorted.ball_iter [[0], [2]] 1 1
          = [[0], [2]].map (fun c => probeIdx3sorted.ball_single c 1)
        ∧ probeIdx3sorted.knn_iter [[0], [2]] 1 1
            = [[0], [2]].map (fun c => probeIdx3sorted.knn_single c 1)) :=
  ⟨by decide,
    chunked_queries_eq_unchunked probeIdx3sorted [[0], [2]] 1 1 1 (by decide)⟩

/-- `IndexKD.closest(id)` for a single identifier:
`dists, nIds = self.knn(self.coords[ids, :], k=2)` (the single-point
branch of `knn`) followed by `return dists[1], nIds[1]`: the second
entry of the 2-nearest result. -/
def IndexKD.closest_single (idx : IndexKD) (qid : ℕ) : ℚ × ℕ :=
  (idx.knn_single (idx.coords.getD qid []) 2).getD 1 (0, 0)

/-- `IndexKD.closest(ids)` for a batch of identifiers: the bulk branch
of `knn` over `self.coords[ids, :]` with `k=2`, followed by
`return dists[:, 1], nIds[:, 1]`: the parallel arrays of the second
entries of each row. -/
def IndexKD.closest_batch (idx : IndexKD) (ids : List ℕ) (bulk : ℕ) :
    List (ℚ × ℕ) :=
  (idx.knn_iter (ids.map (fun i => idx.coords.getD i [])) 2 bulk).map
    (fun row => row.getD 1 (0, 0))

/-- A 1-D index holding two coincident points (ids `0` and `1`, both at
the origin) and one far point (id `2`). -/
def dupIdx : IndexKD := { coords := [[0], [0], [5]] }

/-- C5 counterexample: the claim says `closest` never returns the query
point's own identifier even when coincident duplicate points exist.
But `closest` merely discards the first of the two nearest entries,
and for the duplicate pair `{0, 1}` both zero-distance entries precede
every other point, so querying id `1` returns id `1` itself. -/
theorem closest_returns_self_on_duplicate :
    (dupIdx.closest_single 1).2 = 1 := by
  norm_num [IndexKD.closest_single, IndexKD.knn_single, kdQuery, distLE,
    sqDist, dupIdx, IndexKD.dim, List.range_succ]

/-- A squared Euclidean distance is a sum of squares, hence
nonnegative. -/
theorem sqDist_nonneg (a b : Coord) : 0 ≤ sqDist a b := by
  apply List.sum_nonneg
  intro x hx
  obtain ⟨p, _, rfl⟩ := List.mem_map.mp hx
  positivity

/-- The squared distance from a row to itself is zero. -/
theorem sqDist_self (a : Coord) : sqDist a a = 0 := by
  induction a with
  | nil => rfl
  | cons x xs ih =>
      simp only [sqDist, List.zip_cons_cons, List.map_cons, List.sum_cons] at ih ⊢
      rw [ih]
      ring

/-- Two rows of equal length at squared distance zero are equal. -/
theorem sqDist_eq_zero (a b : Coord) (hlen : a.length = b.length)
    (h : sqDist a b = 0) : a = b := by
  induction a generalizing b with
  | nil =>
      cases b with
      | nil => rfl
      | cons y ys => simp at hlen
  | cons x xs ih =>
      cases b with
      | nil => simp at hlen
      | cons y ys =>
          simp only [List.length_cons, Nat.add_right_cancel_iff] at hlen
          simp only [sqDist, List.zip_cons_cons, List.map_cons,
            List.sum_cons] at h
          have hxs := sqDist_nonneg xs ys
          simp only [sqDist] at hxs
          have hsq : (x - y) ^ 2 = 0 := by nlinarith [sq_nonneg (x - y)]
          have hrest : ((xs.zip ys).map (fun p => (p.1 - p.2) ^ 2)).sum = 0 := by
            nlinarith [sq_nonneg (x - y)]
          have hx : x = y := by
            have := pow_eq_zero_iff (n := 2) (by norm_num) |>.mp hsq
            linarith [sub_eq_zero.mp this]
          have hxs2 : xs = ys := ih ys hlen hrest
          rw [hx, hxs2]

/-- C5 amended: `closest` returns the second entry of the 2-nearest
result, so it excludes the query point exactly when no other stored
point coincides with it: if the query point's coordinates are unique
in the (rectangular) set, the returned identifier differs from the
query identifier; and a batch of identifiers yields the parallel
per-identifier results, in input order. -/
theorem closest_excludes_self_when_unique (idx : IndexKD) (qid : ℕ)
    (hrect : ∀ p ∈ idx.coords, p.length = idx.dim)
    (hq : qid < idx.coords.length)
    (huniq : ∀ j < idx.coords.length, j ≠ qid →
        idx.coords.getD j [] ≠ idx.coords.getD qid [])
    (h2 : 2 ≤ idx.coords.length)
    (ids : List ℕ) (bulk : ℕ) (hb : 1 ≤ bulk) :
    (idx.closest_single qid).2 ≠ qid
    ∧ idx.closest_batch ids bulk = ids.map (fun i => idx.closest_single i) := by
  constructor
  · -- the stored row of the query point, and the truncation being trivial
    have hmemq : idx.coords.getD qid [] ∈ idx.coords := by
      rw [List.getD_eq_getElem _ _ hq]
      exact List.getElem_mem hq
    have hcq : (idx.coords.getD qid []).take idx.dim = idx.coords.getD qid [] :=
      List.take_of_length_le (le_of_eq (hrect _ hmemq))
    set c := idx.coords.getD qid [] with hc
    set n := idx.coords.length with hn
    set l := (List.range n).map (fun i => (sqDist c (idx.coords.getD i []), i))
      with hl
    set s := List.insertionSort distLE l with hs
    have hperm : List.Perm s l := List.perm_insertionSort distLE l
    have hsorted : List.Sorted distLE s := List.sorted_insertionSort distLE l
    have hslen : s.length = n := by
      rw [hperm.length_eq, hl, List.length_map, List.length_range]
    -- membership description of the key list
    have hmeml : ∀ x ∈ l, ∃ i, i < n ∧
        x = (sqDist c (idx.coords.getD i []), i) := by
      intro x hx
      obtain ⟨i, hi, rfl⟩ := List.mem_map.mp hx
      exact ⟨i, List.mem_range.mp hi, rfl⟩
    have hzero : (0, qid) ∈ l := by
      rw [hl]
      refine List.mem_map.mpr ⟨qid, List.mem_range.mpr hq, ?_⟩
      rw [hc, sqDist_self]
    have hnonneg : ∀ x ∈ l, 0 ≤ x.1 := by
      intro x hx
      obtain ⟨i, _, rfl⟩ := hmeml x hx
      exact sqDist_nonneg _ _
    have hzuniq : ∀ x ∈ l, x.1 = 0 → x = (0, qid) := by
      intro x hx hx0
      obtain ⟨i, hi, rfl⟩ := hmeml x hx
      simp only at hx0
      by_cases hiq : i = qid
      · subst hiq
        rw [hx0]
      · exfalso
        apply huniq i hi hiq
        have hmemi : idx.coords.getD i [] ∈ idx.coords := by
          rw [List.getD_eq_getElem _ _ hi]
          exact List.getElem_mem hi
        have hlen : c.length = (idx.coords.getD i []).length := by
          rw [hc]
          rw [hrect _ hmemq, hrect _ hmemi]
        exact (sqDist_eq_zero c _ hlen hx0).symm
    -- the key list and hence the sorted list have no duplicates
    have hndl : l.Nodup := by
      apply List.Nodup.of_map Prod.snd
      rw [hl, List.map_map]
      have hid : (Prod.snd ∘ fun i => (sqDist c (idx.coords.getD i []), i))
          = id := rfl
      rw [hid, List.map_id]
      exact List.nodup_range n
    have hnds : s.Nodup := (hperm.nodup_iff).mpr hndl
    -- expose the first two entries of the sorted list
    have hpos1 : 0 < s.length := by omega
    obtain ⟨a, s1, ha1⟩ := List.exists_cons_of_length_pos hpos1
    have hpos2 : 0 < s1.length := by
      rw [ha1, List.length_cons] at hslen
      omega
    obtain ⟨b, t, hb1⟩ := List.exists_cons_of_length_pos hpos2
    have hsm : s = a :: b :: t := by rw [ha1, hb1]
    rw [hsm] at hperm hsorted hnds
    have hale : ∀ y ∈ b :: t, distLE a y :=
      List.rel_of_sorted_cons hsorted
    have hamem : a ∈ l := hperm.mem_iff.mp (List.mem_cons_self _ _)
    have hbmem : b ∈ l := hperm.mem_iff.mp
      (List.mem_cons_of_mem _ (List.mem_cons_self _ _))
    -- the head is the zero-distance self entry
    have ha : a = (0, qid) := by
      rcases List.mem_cons.mp (hperm.mem_iff.mpr hzero) with h | h
      · exact h.symm
      · have h1 : a.1 ≤ 0 := hale _ h
        have h0 : 0 ≤ a.1 := hnonneg a hamem
        exact hzuniq a hamem (le_antisymm h1 h0)
    -- the second entry cannot be the query point
    have hb2 : b.2 ≠ qid := by
      intro hbq
      obtain ⟨j, hj, hbj⟩ := hmeml b hbmem
      have hjq : j = qid := by
        rw [hbj] at hbq
        simpa using hbq
      have hbz : b = (0, qid) := by
        rw [hbj, hjq, ← hc, sqDist_self]
      have hnotin : a ∉ b :: t := (List.nodup_cons.mp hnds).1
      exact hnotin (by rw [ha, ← hbz]; exact List.mem_cons_self _ _)
    -- compute what `closest` returns
    have hres : idx.closest_single qid = b := by
      simp only [IndexKD.closest_single, IndexKD.knn_single, kdQuery]
      rw [← hc, hcq, ← hn, ← hl, ← hs, hsm]
      rfl
    rw [hres]
    exact hb2
  · -- batch: chunked 2-nearest rows, second entries, in input order
    simp only [IndexKD.closest_batch, IndexKD.knn_iter]
    rw [chunkedMap_eq_map _ _ hb, List.map_map, List.map_map]
    rfl

/-- C5 amended witness: the theorem applied to the three-point 1-D
index with pairwise distinct coordinates, query id `0`, the batch
`[0, 2]` and chunk size `1`. -/
theorem closest_excludes_self_when_unique_witness :
    ((probeIdx3sorted.closest_single 0).2 ≠ 0
      ∧ probeIdx3sorted.closest_batch [0, 2] 1
          = [0, 2].map (fun i => probeIdx3sorted.closest_single i)) :=
  closest_excludes_self_when_unique probeIdx3sorted 0
    (by
      intro p hp
      simp only [probeIdx3sorted, List.mem_cons, List.not_mem_nil,
        or_false] at hp
      rcases hp with rfl | rfl | rfl <;> rfl)
    (by decide)
    (by
      intro j hj hne
      simp only [probeIdx3sorted, List.length_cons, List.length_nil] at hj
      interval_cases j
      · exact absurd rfl hne
      · norm_num [probeIdx3sorted]
      · norm_num [probeIdx3sorted])
    (by decide)
    [0, 2] 1 (by decide)

/-- A heap of numpy arrays: a cell per allocated array, addressed by
position.  Distinct addresses are distinct array objects; mutating one
cell leaves every other cell untouched. -/
abbrev Heap := List Coords

/-- Reading the array object at an address. -/
def heapRead (h : Heap) (a : ℕ) : Coords := h.getD a []

/-- In-place mutation of the array object at an address
(e.g. `coords[0, 0] = 42` by the caller). -/
def heapWrite (h : Heap) (a : ℕ) (v : Coords) : Heap := h.set a v

/-- Modelled from the spec: `assertion.ensure_coords` (module
`pointspy.assertion`, not under `src/`) validates that its input is
coercible to a rectangular `(n, k)` numeric array and returns the
canonical array; for an already-valid array it returns the same
content. -/
def ensure_coords (a : Coords) : Coords := a

/-- Modelled from the spec: `transformation.transform` (module
`pointspy.transformation`, not under `src/`) applies a homogeneous
`(k+1) x (k+1)` affine matrix to every point, returning a new array of
the transformed coordinates. -/
def applyTransform (m : List (List ℚ)) (a : Coords) : Coords :=
  a.map (fun p =>
    m.dropLast.map (fun row =>
      ((row.zip (p ++ [1])).map (fun q => q.1 * q.2)).sum))

/-- The caller-visible handle produced by `IndexKD.__init__`: the
address of the array object stored as `self._coords`. -/
structure IndexHandle where
  coordsAddr : ℕ

/-- `IndexKD.__init__(coords, transform, ...)` against the heap:
`coords = assertion.ensure_coords(coords).copy()` allocates a fresh
array object holding a copy of the caller's content; with no transform
that copy is stored as `self._coords`, otherwise
`transformation.transform(coords, self._transform)` of the copy is
stored.  Either way `self._coords` is a newly allocated cell, never
the caller's. -/
def indexKD_init (h : Heap) (callerAddr : ℕ)
    (transform : Option (List (List ℚ))) : Heap × IndexHandle :=
  let validated := ensure_coords (heapRead h callerAddr)
  let copied := validated
  let stored := match transform with
    | none => copied
    | some m => applyTransform m copied
  (h ++ [stored], ⟨h.length⟩)

/-- C10: Construction copies the coordinate array before storing or
transforming it, so mutating the caller's array object afterwards
leaves the index's stored snapshot — and hence every subsequent query
result — unchanged. -/
theorem init_copies_coords_frame (h : Heap) (callerAddr : ℕ)
    (transform : Option (List (List ℚ))) (v : Coords) (c : Coord) (r : ℚ)
    (hvalid : callerAddr < h.length) :
    heapRead (heapWrite (indexKD_init h callerAddr transform).1 callerAddr v)
        (indexKD_init h callerAddr transform).2.coordsAddr
      = heapRead (indexKD_init h callerAddr transform).1
          (indexKD_init h callerAddr transform).2.coordsAddr
    ∧ queryBallPoint
        (heapRead
          (heapWrite (indexKD_init h callerAddr transform).1 callerAddr v)
          (indexKD_init h callerAddr transform).2.coordsAddr) c r
      = queryBallPoint
          (heapRead (indexKD_init h callerAddr transform).1
            (indexKD_init h callerAddr transform).2.coordsAddr) c r := by
  have hne : callerAddr ≠ h.length := Nat.ne_of_lt hvalid
  have hframe :
      heapRead (heapWrite (indexKD_init h callerAddr transform).1 callerAddr v)
          (indexKD_init h callerAddr transform).2.coordsAddr
        = heapRead (indexKD_init h callerAddr transform).1
            (indexKD_init h callerAddr transform).2.coordsAddr := by
    simp only [indexKD_init, heapRead, heapWrite, List.getD_eq_getElem?_getD]
    rw [List.getElem?_set_ne hne]
  exact ⟨hframe, by rw [hframe]⟩

/-- C10 witness: a one-cell heap holding the caller's 1-D array at
address `0`, construction without a transform, then the caller
overwrites their array. -/
theorem init_copies_coords_frame_witness :
    (0 : ℕ) < [[[(0 : ℚ)], [2]]].length
    ∧ (heapRead
          (heapWrite (indexKD_init [[[(0 : ℚ)], [2]]] 0 none).1 0 [[7], [8]])
          (indexKD_init [[[(0 : ℚ)], [2]]] 0 none).2.coordsAddr
        = heapRead (indexKD_init [[[(0 : ℚ)], [2]]] 0 none).1
            (indexKD_init [[[(0 : ℚ)], [2]]] 0 none).2.coordsAddr
      ∧ queryBallPoint
          (heapRead
            (heapWrite (indexKD_init [[[(0 : ℚ)], [2]]] 0 none).1 0 [[7], [8]])
            (indexKD_init [[[(0 : ℚ)], [2]]] 0 none).2.coordsAddr) [0] 1
        = queryBallPoint
            (heapRead (indexKD_init [[[(0 : ℚ)], [2]]] 0 none).1
              (indexKD_init [[[(0 : ℚ)], [2]]] 0 none).2.coordsAddr) [0] 1) :=
  ⟨by decide,
    init_copies_coords_frame [[[(0 : ℚ)], [2]]] 0 none [[7], [8]] [0] 1
      (by decide)⟩

end Pointspy
